import Mathlib

/-!
Shallow embedding of the BioForge Genetic Circuit Analysis and Simulation
Engine.  Sequences are lists of characters, Python floats are modelled as
rationals, and the index-driven loops of the Python services are embedded
as fuel-based structural recursions (the fuel is provably sufficient, so
the fueled functions compute exactly the loops they embed).
-/

namespace BioForge

/-- Uppercase a character list, embedding Python str.upper on DNA text. -/
def upperL (s : List Char) : List Char := s.map Char.toUpper

/-- Lowercase a character list, embedding Python str.lower. -/
def lowerL (s : List Char) : List Char := s.map Char.toLower

/-- Boolean test that pat occurs at the head of s (helper for substring
search, embedding the prefix step of Python str containment). -/
def startsWithL : List Char → List Char → Bool
  | [], _ => true
  | _ :: _, [] => false
  | a :: as, b :: bs => a = b && startsWithL as bs

/-- Boolean substring containment, embedding Python `pat in s` on strings. -/
def containsSub : List Char → List Char → Bool
  | pat, [] => startsWithL pat []
  | pat, c :: rest => startsWithL pat (c :: rest) || containsSub pat rest

/-- GC content of a sequence: (count of G plus count of C) divided by the
length, and 0 on the empty sequence.  Embeds _calculate_gc_content of
src/backend/services/ai_service.py lines 275-280. -/
def gcContent (s : List Char) : ℚ :=
  let gc_count : ℚ := s.count 'G' + s.count 'C'
  if s.length > 0 then gc_count / s.length else 0

/-- The three stop codons TAA, TAG, TGA. -/
def stopCodons : List (List Char) :=
  [['T', 'A', 'A'], ['T', 'A', 'G'], ['T', 'G', 'A']]

/-- The codon slice fs[i:i+3] of Python (shorter near the end of the
list, exactly like a Python slice). -/
def codonAt (fs : List Char) (i : Nat) : List Char := (fs.drop i).take 3

/-- Fueled scan for the first in-frame stop codon at or after position j,
embedding the inner `for j in range(i, len(frame_seq), 3)` loop of
_find_orfs.  Fuel bounds the number of iterations; findStop supplies a
provably sufficient fuel. -/
def findStopF : Nat → List Char → Nat → Option Nat
  | 0, _, _ => none
  | fuel + 1, fs, j =>
    if j < fs.length then
      if codonAt fs j ∈ stopCodons then some j
      else findStopF fuel fs (j + 3)
    else none

/-- Position of the first in-frame stop codon at or after j, or none. -/
def findStop (fs : List Char) (j : Nat) : Option Nat :=
  findStopF fs.length fs j

/-- Fueled scan over the codon-aligned start positions of one reading
frame, embedding the outer `for i in range(0, len(frame_seq), 3)` loop of
_find_orfs (src/backend/services/ai_service.py lines 199-225): at each
ATG, take the slice up to and including the first downstream stop codon
and keep it when its length reaches min_length. -/
def orfScanF : Nat → List Char → Nat → Nat → List (List Char)
  | 0, _, _, _ => []
  | fuel + 1, fs, i, minLength =>
    if i < fs.length then
      if codonAt fs i = ['A', 'T', 'G'] then
        match findStop fs i with
        | some j =>
          if minLength ≤ ((fs.drop i).take (j + 3 - i)).length then
            (fs.drop i).take (j + 3 - i) :: orfScanF fuel fs (i + 3) minLength
          else orfScanF fuel fs (i + 3) minLength
        | none => orfScanF fuel fs (i + 3) minLength
      else orfScanF fuel fs (i + 3) minLength
    else []

/-- One reading frame scanned from position 0 with sufficient fuel. -/
def orfScan (fs : List Char) (minLength : Nat) : List (List Char) :=
  orfScanF fs.length fs 0 minLength

/-- The frame-shifted sequence truncated to a length divisible by 3,
embedding `frame_seq = seq[frame:]` then the slice dropping the trailing
remainder. -/
def frameSeq (s : List Char) (frame : Nat) : List Char :=
  let t := s.drop frame
  t.take (t.length - t.length % 3)

/-- All open reading frames of a sequence: the three reading frames are
scanned independently and their ORF lists concatenated in frame order,
embedding _find_orfs / find_orfs (default min_length 30). -/
def findOrfs (s : List Char) (minLength : Nat := 30) : List (List Char) :=
  orfScan (frameSeq s 0) minLength ++ orfScan (frameSeq s 1) minLength ++
    orfScan (frameSeq s 2) minLength

/-- Emit step of the homopolymer scan: one record when the finished run
is at least min_run long. -/
def homoEmit (cur : Option Char) (runLen minRun : Nat) : List String :=
  if minRun ≤ runLen then
    [(match cur with
      | some c => String.singleton c
      | none => "None") ++ "x" ++ toString runLen]
  else []

/-- Left-to-right homopolymer scan carrying the current base and run
length, embedding the loop of _find_homopolymers
(src/backend/services/ai_service.py lines 227-248); the final run is
checked after the loop. -/
def homoLoop : List Char → Option Char → Nat → Nat → List String
  | [], cur, runLen, minRun => homoEmit cur runLen minRun
  | b :: rest, cur, runLen, minRun =>
    if some b = cur then homoLoop rest cur (runLen + 1) minRun
    else homoEmit cur runLen minRun ++ homoLoop rest (some b) 1 minRun

/-- All homopolymer records of a sequence (default minimum run 6). -/
def findHomopolymers (s : List Char) (minRun : Nat := 6) : List String :=
  homoLoop s none 0 minRun

/-- The fixed E. coli rare-codon table of _check_rare_codons. -/
def rareCodonTable : List (List Char) :=
  ["CTA".toList, "ATA".toList, "CGA".toList, "CGG".toList,
   "AGG".toList, "AGA".toList, "CCC".toList, "TCG".toList]

/-- Fueled codon scan of one frame accumulating rare codons not already
found, embedding the inner loop of _check_rare_codons. -/
def rareFrameF : Nat → List Char → Nat → List (List Char) → List (List Char)
  | 0, _, _, found => found
  | fuel + 1, fs, i, found =>
    if i < fs.length then
      let codon := codonAt fs i
      let found2 :=
        if codon ∈ rareCodonTable ∧ codon ∉ found then found ++ [codon] else found
      rareFrameF fuel fs (i + 3) found2
    else found

/-- Rare codons found across the three frames, threading one accumulator
through the frames as _check_rare_codons does
(src/backend/services/ai_service.py lines 250-273). -/
def checkRareCodons (s : List Char) : List (List Char) :=
  let f0 := rareFrameF (frameSeq s 0).length (frameSeq s 0) 0 []
  let f1 := rareFrameF (frameSeq s 1).length (frameSeq s 1) 0 f0
  rareFrameF (frameSeq s 2).length (frameSeq s 2) 0 f1

/-- The valid DNA alphabet. -/
def validChars : List Char := ['A', 'T', 'G', 'C']

/-- The invalid characters of the uppercased input, with multiplicity, in
input order: the Python list comprehension of validate_sequence line 52. -/
def invalidCharsOf (s : List Char) : List Char :=
  (upperL s).filter (fun c => decide (c ∉ validChars))

/-- Comma-space join, embedding str.join of Python. -/
def joinComma : List String → String
  | [] => ""
  | [x] => x
  | x :: y :: rest => x ++ ", " ++ joinComma (y :: rest)

/-- The invalid-characters issue message.  Python joins an unordered set
of the offending characters; the set is modelled deterministically as the
deduplicated list. -/
def invalidIssue (cs : List Char) : String :=
  "Invalid DNA characters found: " ++ joinComma (cs.dedup.map String.singleton)

/-- Rendering of a rational in a message.  Python formats the float with
two decimals; the exact rational rendering stands in for it here. -/
def ratStr (q : ℚ) : String := toString q

/-- The validation report of validate_sequence.  The fields computed only
on the valid path are optional, mirroring the two dictionary shapes built
by the Python code. -/
structure ValidationReport where
  valid : Bool
  sequence_length : Option Nat
  gc_content : Option ℚ
  orfs : Option Nat
  issues : List String
  warnings : List String
  suggestions : List String
deriving DecidableEq, Repr

/-- Pure validation of a DNA sequence, embedding validate_sequence of
src/backend/services/ai_service.py lines 35-120 without the cache: the
character check short-circuits, otherwise homopolymer, rare-codon and GC
checks append their warning and suggestion pairs in the order of the
source. -/
def pureValidate (dna : List Char) : ValidationReport :=
  let invalid := invalidCharsOf dna
  if invalid ≠ [] then
    { valid := false, sequence_length := none, gc_content := none, orfs := none,
      issues := [invalidIssue invalid], warnings := [],
      suggestions := ["Replace invalid characters with A, T, G, or C"] }
  else
    let seq := upperL dna
    let orfs := findOrfs seq
    let homopolymers := findHomopolymers seq
    let wHomo : List String :=
      if homopolymers ≠ [] then
        ["Homopolymer regions found: " ++ joinComma homopolymers]
      else []
    let sHomo : List String :=
      if homopolymers ≠ [] then
        ["Consider breaking up homopolymer regions to improve stability"]
      else []
    let rare := checkRareCodons seq
    let wOrf : List String :=
      if orfs ≠ [] then
        if rare ≠ [] then
          ["Rare codons found: " ++
            joinComma (rare.map (fun c => String.mk c))]
        else []
      else ["No open reading frames found"]
    let sOrf : List String :=
      if orfs ≠ [] then
        if rare ≠ [] then ["Consider codon optimization to improve expression"]
        else []
      else ["Check if this is intentional or if there\x27s a frameshift"]
    let gc := gcContent seq
    let wGc : List String :=
      if gc < 0.3 then ["Low GC content (" ++ ratStr gc ++ ")"]
      else if gc > 0.7 then ["High GC content (" ++ ratStr gc ++ ")"]
      else []
    let sGc : List String :=
      if gc < 0.3 then ["Consider increasing GC content for stability"]
      else if gc > 0.7 then ["Consider decreasing GC content for easier handling"]
      else []
    { valid := true, sequence_length := some dna.length, gc_content := some gc,
      orfs := some orfs.length, issues := [],
      warnings := wHomo ++ wOrf ++ wGc,
      suggestions := sHomo ++ sOrf ++ sGc }

/-- One cache entry: the stored report and its timestamp. -/
structure CacheEntry where
  data : ValidationReport
  timestamp : ℚ
deriving DecidableEq

/-- Lookup in the cache modelled as an association list with shadowing
(the Python dict). -/
def cacheLookup : List (String × CacheEntry) → String → Option CacheEntry
  | [], _ => none
  | (k, e) :: rest, key => if k = key then some e else cacheLookup rest key

/-- The cache TTL of 3600 seconds. -/
def cacheExpiry : ℚ := 3600

/-- Cached validation, embedding the cache read at the top of
validate_sequence and the cache write before each return: a fresh entry
answers directly, otherwise the report is recomputed and stored under the
key `validate_` ++ input. -/
def validateCached (dna : String) (cache : List (String × CacheEntry)) (now : ℚ) :
    ValidationReport × List (String × CacheEntry) :=
  let key := "validate_" ++ dna
  match cacheLookup cache key with
  | some e =>
    if now - e.timestamp < cacheExpiry then (e.data, cache)
    else
      let r := pureValidate dna.toList
      (r, (key, ⟨r, now⟩) :: cache)
  | none =>
    let r := pureValidate dna.toList
    (r, (key, ⟨r, now⟩) :: cache)

/-- A cache is good when every validation entry stored in it holds the
report that validation itself computes for its key: the invariant
maintained by validate_sequence, the only writer of these entries. -/
def CacheGood (cache : List (String × CacheEntry)) : Prop :=
  ∀ s e, ("validate_" ++ s, e) ∈ cache → e.data = pureValidate s.toList

/-- A function prediction record, mirroring the dictionaries returned by
predict_function and _simulate_prediction. -/
structure FunctionPrediction where
  prediction : String
  confidence : ℚ
  possible_functions : List String
  protein_domains : List String
  notes : List String
deriving DecidableEq, Repr

/-- The literal GFP signature of _simulate_prediction. -/
def gfpSignature : List Char := "ATGGTGAGCAAGGGCGAGGAG".toList

/-- The literal RFP signature of _simulate_prediction. -/
def rfpSignature : List Char := "ATGGCCTCCTCCGAGGACGTC".toList

/-- Heuristic prediction cascade, embedding _simulate_prediction of
src/backend/services/ai_service.py lines 282-349.  The optional
embedding argument of the source is ignored by the cascade and is
therefore omitted. -/
def simulatePrediction (dna : List Char) : FunctionPrediction :=
  let seq := upperL dna
  let len := seq.length
  let gc := gcContent seq
  if containsSub "ATG".toList seq = true ∧
      (containsSub "TAA".toList seq = true ∨ containsSub "TAG".toList seq = true ∨
        containsSub "TGA".toList seq = true) then
    if containsSub gfpSignature seq = true then
      { prediction := "Green Fluorescent Protein (GFP)", confidence := 0.95,
        possible_functions := ["Fluorescent reporter", "Protein tagging"],
        protein_domains := ["GFP beta-barrel"],
        notes := ["High confidence match to GFP sequence"] }
    else if containsSub rfpSignature seq = true then
      { prediction := "Red Fluorescent Protein (RFP)", confidence := 0.92,
        possible_functions := ["Fluorescent reporter", "Protein tagging"],
        protein_domains := ["DsRed-like"],
        notes := ["High confidence match to RFP sequence"] }
    else if gc > 0.65 then
      { prediction := "Stress Response Protein", confidence := 0.78,
        possible_functions := ["Heat shock response", "Oxidative stress response"],
        protein_domains := ["Chaperone-like", "Redox-active"],
        notes := ["High GC content suggests stress-related function"] }
    else
      { prediction := "Metabolic Enzyme", confidence := 0.65,
        possible_functions := ["Carbon metabolism", "Biosynthesis"],
        protein_domains := ["Enzyme active site", "Substrate binding domain"],
        notes := ["Sequence contains features consistent with metabolic enzymes"] }
  else if containsSub "TATAAT".toList seq = true ∨ containsSub "TTGACA".toList seq = true then
    { prediction := "Promoter Region", confidence := 0.88,
      possible_functions := ["Transcription initiation", "Gene regulation"],
      protein_domains := [],
      notes := ["Contains sigma-70 promoter consensus sequences"] }
  else if gc < 0.4 ∧ len < 50 then
    { prediction := "Ribosome Binding Site", confidence := 0.75,
      possible_functions := ["Translation initiation"],
      protein_domains := [],
      notes := ["Low GC content and short length typical of RBS"] }
  else
    { prediction := "Unknown Function", confidence := 0.3,
      possible_functions := ["Structural element", "Regulatory element", "Coding sequence"],
      protein_domains := [],
      notes := ["Sequence does not match known patterns"] }

/-- The no-ORF result of predict_function. -/
def noOrfResult : FunctionPrediction :=
  { prediction := "Unknown", confidence := 0, possible_functions := [],
    protein_domains := [], notes := ["No open reading frames found"] }

/-- Function prediction, embedding predict_function of
src/backend/services/ai_service.py lines 122-197 without the cache: when
the model is not loaded the heuristic cascade answers directly; when it
is loaded, an empty ORF list short-circuits to the Unknown result, and
otherwise the externally computed embedding is passed to
_simulate_prediction, which discards it, so the cascade answers again. -/
def predictFunction (modelLoaded : Bool) (dna : List Char) : FunctionPrediction :=
  if modelLoaded = false then simulatePrediction dna
  else
    let orfs := findOrfs (upperL dna)
    if orfs = [] then noOrfResult
    else simulatePrediction dna

/-- A genetic part, mirroring the DNAPart models. -/
structure DNAPart where
  id : String
  name : String
  type : String
  sequence : List Char
deriving DecidableEq, Repr

/-- A design: a name and its ordered parts, mirroring DNADesign. -/
structure DNADesign where
  name : String
  parts : List DNAPart
deriving DecidableEq, Repr

/-- Concatenation of the part sequences in order, embedding the
full_sequence property of src/backend/models/dna_design.py. -/
def fullSequence (d : DNADesign) : List Char :=
  (d.parts.map (fun p => p.sequence)).flatten

/-- The fixed dangerous patterns of SafetyService. -/
def dangerousPatterns : List (List Char) :=
  ["ATGCCGGTGATGCGGTGCG".toList, "ATGGCGCAACTGCAACGCG".toList,
   "ATGGCGACCGAACGCGCGG".toList, "ATGCGCGTGCAACTGCGCG".toList]

/-- The dangerous patterns matched in the full sequence.  The Python
re.search with re.IGNORECASE on a literal uppercase nucleotide pattern is
case-insensitive literal containment, modelled as containment in the
uppercased sequence. -/
def dangerousMatches (d : DNADesign) : List (List Char) :=
  dangerousPatterns.filter (fun p => containsSub p (upperL (fullSequence d)))

/-- Part-name keyword test: some part name contains one of the two
keywords after lowercasing, embedding the any(...) generator of
check_safety. -/
def nameFlag (d : DNADesign) (kw1 kw2 : List Char) : Bool :=
  d.parts.any (fun p =>
    containsSub kw1 (lowerL p.name.toList) || containsSub kw2 (lowerL p.name.toList))

/-- Antibiotic-resistance keyword flag of check_safety lines 57-61. -/
def hasAntibioticResistance (d : DNADesign) : Bool :=
  nameFlag d "antibiotic".toList "resistance".toList

/-- Kill-switch keyword flag of check_safety lines 69-73. -/
def hasKillSwitch (d : DNADesign) : Bool :=
  nameFlag d "kill".toList "suicide".toList

/-- Toxin keyword flag of check_safety lines 79-83. -/
def hasToxin (d : DNADesign) : Bool :=
  nameFlag d "toxin".toList "poison".toList

/-- The four safety scores before the final clamp. -/
structure RawScores where
  overall : ℚ
  toxicity : ℚ
  environmental_risk : ℚ
  biocontainment : ℚ
deriving DecidableEq, Repr

/-- The additive score accumulation of check_safety
(src/backend/services/safety_service.py lines 39-88): each condition
applies its fixed deltas to the fixed baselines; the conditions are
independent, so the sequential updates are written as one sum per
score. -/
def safetyRaw (d : DNADesign) : RawScores :=
  let dM := dangerousMatches d ≠ []
  let aR := hasAntibioticResistance d = true
  let kS := hasKillSwitch d = true
  let tx := hasToxin d = true
  { overall := 0.9 - (if dM then 0.3 else 0) - (if aR then 0.2 else 0) -
      (if tx then 0.3 else 0),
    toxicity := 0.05 + (if dM then 0.3 else 0) + (if tx then 0.4 else 0),
    environmental_risk := 0.1 + (if dM then 0.2 else 0) + (if aR then 0.3 else 0) +
      (if tx then 0.3 else 0),
    biocontainment := 0.9 - (if aR then 0.2 else 0) - (if ¬ kS then 0.3 else 0) }

/-- Clamp to the unit interval, embedding max(0.0, min(1.0, x)). -/
def clamp01 (x : ℚ) : ℚ := max 0 (min 1 x)

/-- A safety assessment, mirroring the result dictionary of
check_safety. -/
structure SafetyResult where
  overall : ℚ
  toxicity : ℚ
  environmental_risk : ℚ
  biocontainment : ℚ
  dangerous_sequences : Nat
  recommendations : List String
deriving DecidableEq, Repr

/-- Safety assessment, embedding check_safety of
src/backend/services/safety_service.py lines 25-127 without the cache:
recommendations are collected per triggered condition (the overall
threshold check reads the pre-clamp score, as in the source), then every
score is clamped to the unit interval. -/
def checkSafety (d : DNADesign) : SafetyResult :=
  let raw := safetyRaw d
  let recs :=
    (if ¬ (hasKillSwitch d = true) then
      ["Consider adding a kill switch for improved biocontainment"] else []) ++
    (if hasAntibioticResistance d = true then
      ["Antibiotic resistance genes pose environmental risks. Consider alternative selection markers"]
     else []) ++
    (if hasToxin d = true then
      ["Toxin genes detected. Ensure proper containment and regulatory compliance"]
     else []) ++
    (if raw.overall < 0.6 then
      ["This design has significant safety concerns. Review and revise before proceeding"]
     else [])
  { overall := clamp01 raw.overall, toxicity := clamp01 raw.toxicity,
    environmental_risk := clamp01 raw.environmental_risk,
    biocontainment := clamp01 raw.biocontainment,
    dangerous_sequences := (dangerousMatches d).length,
    recommendations := recs }

/-- Case-insensitive part-type presence test, embedding
`any(part.type.lower() == t for part in design.parts)` of
src/simulation-service/main.py lines 70-73. -/
def hasPartType (parts : List DNAPart) (t : List Char) : Bool :=
  parts.any (fun p => lowerL p.type.toList = t)

/-- One pass over the parts recording the index of each archetypal type,
embedding the loop of src/simulation-service/main.py lines 130-138:
later occurrences overwrite earlier ones, and −1 marks absence. -/
def topoLoop : List DNAPart → Int → Int × Int × Int × Int → Int × Int × Int × Int
  | [], _, acc => acc
  | p :: rest, i, (pIdx, rIdx, gIdx, tIdx) =>
    let t := lowerL p.type.toList
    if t = "promoter".toList then topoLoop rest (i + 1) (i, rIdx, gIdx, tIdx)
    else if t = "rbs".toList then topoLoop rest (i + 1) (pIdx, i, gIdx, tIdx)
    else if t = "gene".toList then topoLoop rest (i + 1) (pIdx, rIdx, i, tIdx)
    else if t = "terminator".toList then topoLoop rest (i + 1) (pIdx, rIdx, gIdx, i)
    else topoLoop rest (i + 1) (pIdx, rIdx, gIdx, tIdx)

/-- The promoter, RBS, gene and terminator indices of a part list. -/
def topoIndices (parts : List DNAPart) : Int × Int × Int × Int :=
  topoLoop parts 0 (-1, -1, -1, -1)

/-- Environment adjustment (growth, expression, stability), embedding the
elif chain of src/simulation-service/main.py lines 97-105. -/
def envAdjust (environment : String) : ℚ × ℚ × ℚ :=
  if environment = "nutrient-rich" then (0.1, 0.1, 0)
  else if environment = "minimal" then (-0.1, -0.1, 0)
  else if environment = "stress" then (-0.2, 0, -0.1)
  else (0, 0, 0)

/-- Host-organism adjustment (growth, expression), embedding lines
108-116. -/
def hostAdjust (host : String) : ℚ × ℚ :=
  if host = "yeast" then (-0.05, -0.1)
  else if host = "mammalian" then (-0.2, -0.2)
  else if host = "plant" then (-0.3, -0.3)
  else (0, 0)

/-- Temperature adjustment (growth, stability), embedding lines
119-121. -/
def tempAdjust (temperature : ℚ) : ℚ × ℚ :=
  if temperature < 30 ∨ 40 < temperature then (-0.1, -0.1) else (0, 0)

/-- The four scalar scores before the topology-order check: base rates
plus the independent presence, environment, host and temperature deltas
of run_simulation (src/simulation-service/main.py lines 75-121), returned
as (growth_rate, protein_expression, metabolic_burden, stability). -/
def simBase (parts : List DNAPart) (environment host : String) (temperature : ℚ) :
    ℚ × ℚ × ℚ × ℚ :=
  let hasP := hasPartType parts "promoter".toList = true
  let hasR := hasPartType parts "rbs".toList = true
  let hasG := hasPartType parts "gene".toList = true
  let hasT := hasPartType parts "terminator".toList = true
  (0.5 + (if hasP then 0.1 else 0) + (envAdjust environment).1 +
     (hostAdjust host).1 + (tempAdjust temperature).1,
   0 + (if hasP then 0.3 else 0) + (if hasR then 0.2 else 0) +
     (if hasG then 0.3 else 0) + (envAdjust environment).2.1 + (hostAdjust host).2,
   0.3 + (if hasG then 0.2 else 0),
   0.7 + (if hasT then 0.2 else 0) + (envAdjust environment).2.2 +
     (tempAdjust temperature).2)

/-- The deterministic scalar outputs of one simulation run, taken before
the final uniform noise perturbation and clamping. -/
structure SimScores where
  growth_rate : ℚ
  protein_expression : ℚ
  metabolic_burden : ℚ
  stability : ℚ
  correct_order : Bool
deriving DecidableEq, Repr

/-- The deterministic part of run_simulation
(src/simulation-service/main.py lines 60-146): the base scores of
simBase, then the topology-order penalty when all four archetypal types
are present and their recorded indices are not strictly increasing in
promoter, RBS, gene, terminator order. -/
def runSimPre (parts : List DNAPart) (environment host : String) (temperature : ℚ) :
    SimScores :=
  let base := simBase parts environment host temperature
  let idx := topoIndices parts
  if idx.1 ≠ -1 ∧ idx.2.1 ≠ -1 ∧ idx.2.2.1 ≠ -1 ∧ idx.2.2.2 ≠ -1 ∧
      ¬ (idx.1 < idx.2.1 ∧ idx.2.1 < idx.2.2.1 ∧ idx.2.2.1 < idx.2.2.2) then
    { growth_rate := base.1, protein_expression := base.2.1 - 0.2,
      metabolic_burden := base.2.2.1, stability := base.2.2.2 - 0.2,
      correct_order := false }
  else
    { growth_rate := base.1, protein_expression := base.2.1,
      metabolic_burden := base.2.2.1, stability := base.2.2.2,
      correct_order := true }

/-- Last index at which a part of (lowercased) type t occurs at or after
position i, with acc as the index recorded so far: the per-type view of
one topoLoop component. -/
def lastIdxAux (parts : List DNAPart) (t : List Char) (i : Int) (acc : Int) : Int :=
  match parts with
  | [] => acc
  | p :: rest => lastIdxAux rest t (i + 1) (if lowerL p.type.toList = t then i else acc)

/-- A promoter, RBS, gene, terminator design in canonical order. -/
def canonicalParts : List DNAPart :=
  [⟨"1", "promoter", "promoter", []⟩, ⟨"2", "rbs", "rbs", []⟩,
   ⟨"3", "gene", "gene", []⟩, ⟨"4", "terminator", "terminator", []⟩]

/-- The same four parts ordered gene, promoter, RBS, terminator. -/
def gpetParts : List DNAPart :=
  [⟨"3", "gene", "gene", []⟩, ⟨"1", "promoter", "promoter", []⟩,
   ⟨"2", "rbs", "rbs", []⟩, ⟨"4", "terminator", "terminator", []⟩]

/-- A design holding one antibiotic-resistance marker part and no
kill-switch part. -/
def kanrDesign : DNADesign :=
  { name := "kanr", parts := [⟨"1", "KanR resistance marker", "gene", []⟩] }

/-- The GFP signature followed by GC-rich padding: its GC content exceeds
0.65. -/
def gfpRichSeq : List Char := gfpSignature ++ "CCCGGG".toList

/-- A 33-nucleotide sequence that is itself an ORF above the length
threshold. -/
def orfWitnessSeq : List Char :=
  "ATG".toList ++ List.replicate 27 'A' ++ "TAA".toList

theorem startsWithL_iff (pat s : List Char) :
    startsWithL pat s = true ↔ ∃ r, s = pat ++ r := by
  induction pat generalizing s with
  | nil => simp [startsWithL]
  | cons a as ih =>
    cases s with
    | nil => simp [startsWithL]
    | cons b bs =>
      simp only [startsWithL, Bool.and_eq_true, decide_eq_true_eq, ih,
        List.cons_append, List.cons.injEq]
      constructor
      · rintro ⟨rfl, r, rfl⟩; exact ⟨r, rfl, rfl⟩
      · rintro ⟨r, rfl, rfl⟩; exact ⟨rfl, r, rfl⟩

theorem containsSub_iff (pat s : List Char) :
    containsSub pat s = true ↔ ∃ l r, s = l ++ pat ++ r := by
  induction s with
  | nil =>
    simp only [containsSub, startsWithL_iff]
    constructor
    · rintro ⟨r, h⟩; exact ⟨[], r, by simpa using h⟩
    · rintro ⟨l, r, h⟩
      rcases List.append_eq_nil.mp ((List.append_assoc l pat r) ▸ h.symm) with ⟨h1, h2⟩
      rcases List.append_eq_nil.mp h2 with ⟨h3, h4⟩
      exact ⟨[], by simp [h3]⟩
  | cons c rest ih =>
    simp only [containsSub, Bool.or_eq_true, startsWithL_iff, ih]
    constructor
    · rintro (⟨r, h⟩ | ⟨l, r, h⟩)
      · exact ⟨[], r, by simpa using h⟩
      · exact ⟨c :: l, r, by simp [h]⟩
    · rintro ⟨l, r, h⟩
      cases l with
      | nil => exact Or.inl ⟨r, by simpa using h⟩
      | cons x xs =>
        simp only [List.cons_append, List.cons.injEq] at h
        exact Or.inr ⟨xs, r, h.2⟩

/-- Substring containment is transitive: if pat occurs in mid and mid
occurs in s then pat occurs in s. -/
theorem containsSub_trans {pat mid s : List Char}
    (h1 : containsSub pat mid = true) (h2 : containsSub mid s = true) :
    containsSub pat s = true := by
  rw [containsSub_iff] at h1 h2 ⊢
  obtain ⟨l1, r1, rfl⟩ := h1
  obtain ⟨l2, r2, rfl⟩ := h2
  exact ⟨l2 ++ l1, r1 ++ r2, by simp⟩

theorem findStopF_some :
    ∀ (fuel : Nat) (fs : List Char) (j j2 : Nat),
      findStopF fuel fs j = some j2 →
      j ≤ j2 ∧ j2 < fs.length ∧ codonAt fs j2 ∈ stopCodons ∧ (j2 - j) % 3 = 0 ∧
        ∀ k, j ≤ k → k < j2 → (k - j) % 3 = 0 → codonAt fs k ∉ stopCodons := by
  intro fuel
  induction fuel with
  | zero => intro fs j j2 h; simp [findStopF] at h
  | succ n ih =>
    intro fs j j2 h
    rw [findStopF] at h
    by_cases hj : j < fs.length
    · rw [if_pos hj] at h
      by_cases hc : codonAt fs j ∈ stopCodons
      · rw [if_pos hc] at h
        injection h with h
        subst h
        refine ⟨le_refl _, hj, hc, by omega, ?_⟩
        intro k hk1 hk2 _
        exact absurd hk2 (by omega)
      · rw [if_neg hc] at h
        obtain ⟨h1, h2, h3, h4, h5⟩ := ih fs (j + 3) j2 h
        refine ⟨by omega, h2, h3, by omega, ?_⟩
        intro k hk1 hk2 hk3
        rcases Nat.lt_or_ge k (j + 3) with hk | hk
        · have hkj : k = j := by omega
          subst hkj
          exact hc
        · exact h5 k hk hk2 (by omega)
    · rw [if_neg hj] at h
      exact absurd h (by simp)

theorem orfScanF_mem :
    ∀ (fuel : Nat) (fs : List Char) (i minLength : Nat) (orf : List Char),
      orf ∈ orfScanF fuel fs i minLength →
      ∃ i2 j, i ≤ i2 ∧ (i2 - i) % 3 = 0 ∧ i2 < fs.length ∧
        codonAt fs i2 = ['A', 'T', 'G'] ∧ findStop fs i2 = some j ∧
        orf = (fs.drop i2).take (j + 3 - i2) ∧ minLength ≤ orf.length := by
  intro fuel
  induction fuel with
  | zero => intro fs i m orf h; simp [orfScanF] at h
  | succ n ih =>
    intro fs i m orf h
    rw [orfScanF] at h
    by_cases hi : i < fs.length
    · rw [if_pos hi] at h
      by_cases hc : codonAt fs i = ['A', 'T', 'G']
      · rw [if_pos hc] at h
        cases hfs : findStop fs i with
        | none =>
          simp only [hfs] at h
          obtain ⟨i2, j, g1, g2, g3, g4, g5, g6, g7⟩ := ih fs (i + 3) m orf h
          exact ⟨i2, j, by omega, by omega, g3, g4, g5, g6, g7⟩
        | some j =>
          simp only [hfs] at h
          by_cases hm : m ≤ ((fs.drop i).take (j + 3 - i)).length
          · rw [if_pos hm] at h
            rcases List.mem_cons.mp h with rfl | h2
            · exact ⟨i, j, le_refl _, by omega, hi, hc, hfs, rfl, hm⟩
            · obtain ⟨i2, j2, g1, g2, g3, g4, g5, g6, g7⟩ := ih fs (i + 3) m orf h2
              exact ⟨i2, j2, by omega, by omega, g3, g4, g5, g6, g7⟩
          · rw [if_neg hm] at h
            obtain ⟨i2, j2, g1, g2, g3, g4, g5, g6, g7⟩ := ih fs (i + 3) m orf h
            exact ⟨i2, j2, by omega, by omega, g3, g4, g5, g6, g7⟩
      · rw [if_neg hc] at h
        obtain ⟨i2, j2, g1, g2, g3, g4, g5, g6, g7⟩ := ih fs (i + 3) m orf h
        exact ⟨i2, j2, by omega, by omega, g3, g4, g5, g6, g7⟩
    · rw [if_neg hi] at h
      exact absurd h (by simp)

theorem frameSeq_length_mod (s : List Char) (f : Nat) :
    (frameSeq s f).length % 3 = 0 := by
  simp only [frameSeq, List.length_take, List.length_drop]
  omega

theorem orfScan_wellformed (fs : List Char) (hmod : fs.length % 3 = 0)
    (orf : List Char) (h : orf ∈ orfScan fs 30) :
    orf.take 3 = ['A', 'T', 'G'] ∧
    orf.drop (orf.length - 3) ∈ stopCodons ∧
    orf.length % 3 = 0 ∧ 30 ≤ orf.length ∧
    ∀ k, k % 3 = 0 → k + 3 < orf.length → (orf.drop k).take 3 ∉ stopCodons := by
  obtain ⟨i, j, hi0le, hi3, hilen, hATG, hstop, horf, hlen⟩ :=
    orfScanF_mem _ fs 0 30 orf h
  obtain ⟨hij, hjlen, hjstop, hj3, hmin⟩ := findStopF_some _ fs i j hstop
  have hj3le : j + 3 ≤ fs.length := by omega
  have hL : orf.length = j + 3 - i := by
    rw [horf]
    simp only [List.length_take, List.length_drop]
    omega
  refine ⟨?_, ?_, by omega, by omega, ?_⟩
  · rw [horf, List.take_take]
    have hmin3 : min 3 (j + 3 - i) = 3 := by omega
    rw [hmin3]
    exact hATG
  · have hds : orf.drop (orf.length - 3) = (fs.drop j).take 3 := by
      rw [hL, horf, List.drop_take, List.drop_drop]
      have e1 : i + (j + 3 - i - 3) = j := by omega
      have e2 : j + 3 - i - (j + 3 - i - 3) = 3 := by omega
      rw [e1, e2]
    rw [hds]
    exact hjstop
  · intro k hk3 hklt
    rw [hL] at hklt
    have hcd : (orf.drop k).take 3 = (fs.drop (i + k)).take 3 := by
      rw [horf, List.drop_take, List.drop_drop, List.take_take]
      have e3 : min 3 (j + 3 - i - k) = 3 := by omega
      rw [e3]
    rw [hcd]
    exact hmin (i + k) (by omega) (by omega) (by omega)

/-- C10: every ORF returned by the ORF finder at the default minimum
length begins with ATG, ends with a stop codon, has length a multiple of
3 and at least 30, and has no stop codon at any codon-aligned position
strictly before its final codon. -/
theorem find_orfs_wellformed (s orf : List Char) (h : orf ∈ findOrfs s) :
    orf.take 3 = ['A', 'T', 'G'] ∧
    orf.drop (orf.length - 3) ∈ stopCodons ∧
    orf.length % 3 = 0 ∧ 30 ≤ orf.length ∧
    ∀ k, k % 3 = 0 → k + 3 < orf.length → (orf.drop k).take 3 ∉ stopCodons := by
  rcases List.mem_append.mp h with h2 | h2
  · rcases List.mem_append.mp h2 with h3 | h3
    · exact orfScan_wellformed _ (frameSeq_length_mod s 0) orf h3
    · exact orfScan_wellformed _ (frameSeq_length_mod s 1) orf h3
  · exact orfScan_wellformed _ (frameSeq_length_mod s 2) orf h2

theorem find_orfs_wellformed_witness :
    orfWitnessSeq ∈ findOrfs orfWitnessSeq ∧
    (orfWitnessSeq.take 3 = ['A', 'T', 'G'] ∧
     orfWitnessSeq.drop (orfWitnessSeq.length - 3) ∈ stopCodons ∧
     orfWitnessSeq.length % 3 = 0 ∧ 30 ≤ orfWitnessSeq.length ∧
     ∀ k, k % 3 = 0 → k + 3 < orfWitnessSeq.length →
       (orfWitnessSeq.drop k).take 3 ∉ stopCodons) :=
  ⟨by decide, find_orfs_wellformed orfWitnessSeq orfWitnessSeq (by decide)⟩

/-- C5 counterexample: at the default minimum length 30 the ORF finder
returns no ORF at all on ATGAAATAA, not one ORF of length 9. -/
theorem find_orfs_atgaaataa_counterexample :
    findOrfs "ATGAAATAA".toList = [] ∧
    (findOrfs "ATGAAATAA".toList).length ≠ 1 := by decide

/-- C5 (amended): on ATGAAATAA the scan finds exactly one candidate ORF,
the whole 9-nucleotide sequence, and it is kept exactly when the minimum
length is lowered to at most its length; at the default minimum length 30
the result is empty. -/
theorem find_orfs_atgaaataa :
    findOrfs "ATGAAATAA".toList 9 = ["ATGAAATAA".toList] ∧
    findOrfs "ATGAAATAA".toList 30 = [] := by decide

theorem gcContent_eval (s : List Char) (g c n : Nat)
    (hg : s.count 'G' = g) (hc : s.count 'C' = c) (hn : s.length = n)
    (h0 : 0 < n) : gcContent s = ((g : ℚ) + c) / n := by
  simp only [gcContent, hg, hc, hn]
  rw [if_pos h0]

/-- C8: GC content is (count of G plus count of C) over the length on a
non-empty sequence, 0 on the empty sequence, and takes the documented
values 0, 1, 0 on the three reference inputs. -/
theorem gc_content_spec (s : List Char) :
    (s ≠ [] → gcContent s = ((s.count 'G' : ℚ) + s.count 'C') / s.length) ∧
    gcContent [] = 0 ∧
    gcContent "GGCC".toList = 1 ∧ gcContent "ATAT".toList = 0 := by
  refine ⟨?_, by simp [gcContent], ?_, ?_⟩
  · intro h
    have hl : 0 < s.length := List.length_pos.mpr h
    simp only [gcContent]
    rw [if_pos hl]
  · rw [gcContent_eval "GGCC".toList 2 2 4 (by decide) (by decide) (by decide)
      (by norm_num)]
    norm_num
  · rw [gcContent_eval "ATAT".toList 0 0 4 (by decide) (by decide) (by decide)
      (by norm_num)]
    norm_num

theorem gc_content_spec_witness :
    "GGCC".toList ≠ ([] : List Char) ∧
    gcContent "GGCC".toList =
      ((("GGCC".toList.count 'G' : ℚ) + "GGCC".toList.count 'C') /
        "GGCC".toList.length) :=
  ⟨by decide, (gc_content_spec "GGCC".toList).1 (by decide)⟩

/-- C1: any DNA sequence whose uppercased form contains the GFP signature
is predicted as GFP with confidence 0.95 by the heuristic cascade: the
GFP branch precedes, and therefore wins over, the GC-content branch and
every other later branch. -/
theorem gfp_signature_priority (dna : List Char)
    (h : containsSub gfpSignature (upperL dna) = true) :
    (simulatePrediction dna).prediction = "Green Fluorescent Protein (GFP)" ∧
    (simulatePrediction dna).confidence = 0.95 := by
  have hATG : containsSub "ATG".toList (upperL dna) = true :=
    containsSub_trans (by decide) h
  have hTGA : containsSub "TGA".toList (upperL dna) = true :=
    containsSub_trans (by decide) h
  simp only [simulatePrediction]
  rw [if_pos ⟨hATG, Or.inr (Or.inr hTGA)⟩, if_pos h]
  exact ⟨rfl, rfl⟩

theorem gfp_signature_priority_witness :
    containsSub gfpSignature (upperL gfpRichSeq) = true ∧
    gcContent (upperL gfpRichSeq) > 0.65 ∧
    (simulatePrediction gfpRichSeq).prediction =
      "Green Fluorescent Protein (GFP)" ∧
    (simulatePrediction gfpRichSeq).confidence = 0.95 := by
  refine ⟨by decide, ?_, gfp_signature_priority gfpRichSeq (by decide)⟩
  rw [gcContent_eval (upperL gfpRichSeq) 14 5 27 (by decide) (by decide)
    (by decide) (by norm_num)]
  norm_num

/-- C6 counterexample: the GFP signature itself yields no ORFs, yet on
the fallback path (model not loaded) predict_function answers GFP with
confidence 0.95 rather than the Unknown, confidence 0, no-ORF report. -/
theorem predict_fallback_counterexample :
    findOrfs (upperL gfpSignature) = [] ∧
    predictFunction false gfpSignature ≠ noOrfResult ∧
    (predictFunction false gfpSignature).prediction =
      "Green Fluorescent Protein (GFP)" := by
  refine ⟨by decide, by decide, by decide⟩

/-- C6 (amended): when the model backend is loaded, an input on which the
ORF finder returns no ORFs is answered with prediction Unknown,
confidence 0 and the note "No open reading frames found"; on the fallback
path the heuristic cascade answers directly without consulting the ORF
finder, so this guarantee holds only for the model-loaded path. -/
theorem predict_no_orfs_unknown (dna : List Char)
    (h : findOrfs (upperL dna) = []) :
    predictFunction true dna = noOrfResult := by
  simp only [predictFunction, h]
  simp

theorem predict_no_orfs_unknown_witness :
    findOrfs (upperL "CCC".toList) = [] ∧
    predictFunction true "CCC".toList = noOrfResult :=
  ⟨by decide, predict_no_orfs_unknown "CCC".toList (by decide)⟩

theorem clamp01_bounds (x : ℚ) : 0 ≤ clamp01 x ∧ clamp01 x ≤ 1 :=
  ⟨le_max_left 0 _, max_le (by norm_num) (min_le_left 1 x)⟩

theorem resistance_implies_flag (d : DNADesign)
    (h : (d.parts.any fun p =>
      containsSub "resistance".toList (lowerL p.name.toList)) = true) :
    hasAntibioticResistance d = true := by
  simp only [hasAntibioticResistance, nameFlag]
  rw [List.any_eq_true] at h ⊢
  obtain ⟨p, hp, hc⟩ := h
  exact ⟨p, hp, by rw [hc, Bool.or_true]⟩

/-- C3: a design with a part whose lowercased name contains "resistance"
and with no kill-switch part has pre-clamp overall score at most 0.7 and
pre-clamp biocontainment score at most 0.4, with equality when neither a
dangerous motif nor a toxin name triggers a further deduction, and all
four returned scores lie in the unit interval after clamping. -/
theorem safety_resistance_scores (d : DNADesign)
    (hres : (d.parts.any fun p =>
      containsSub "resistance".toList (lowerL p.name.toList)) = true)
    (hkill : hasKillSwitch d = false) :
    (safetyRaw d).overall ≤ 0.7 ∧ (safetyRaw d).biocontainment ≤ 0.4 ∧
    ((dangerousMatches d = [] ∧ hasToxin d = false) →
      (safetyRaw d).overall = 0.7 ∧ (safetyRaw d).biocontainment = 0.4) ∧
    (0 ≤ (checkSafety d).overall ∧ (checkSafety d).overall ≤ 1) ∧
    (0 ≤ (checkSafety d).toxicity ∧ (checkSafety d).toxicity ≤ 1) ∧
    (0 ≤ (checkSafety d).environmental_risk ∧
      (checkSafety d).environmental_risk ≤ 1) ∧
    (0 ≤ (checkSafety d).biocontainment ∧ (checkSafety d).biocontainment ≤ 1) := by
  have hAR := resistance_implies_flag d hres
  refine ⟨?_, ?_, ?_, ?_, ?_, ?_, ?_⟩
  · simp only [safetyRaw, hAR, hkill]
    split_ifs <;>
      first
      | exact ((by assumption : False)).elim
      | exact absurd trivial (by assumption)
      | exact absurd rfl (by assumption)
      | norm_num
  · simp only [safetyRaw, hAR, hkill]
    split_ifs <;>
      first
      | exact ((by assumption : False)).elim
      | exact absurd trivial (by assumption)
      | exact absurd rfl (by assumption)
      | norm_num
  · rintro ⟨hdm, htx⟩
    simp only [safetyRaw, hAR, hkill, hdm, htx]
    split_ifs <;>
      first
      | exact ((by assumption : False)).elim
      | exact absurd trivial (by assumption)
      | exact absurd rfl (by assumption)
      | norm_num
  · exact (by simp only [checkSafety] : (checkSafety d).overall =
      clamp01 (safetyRaw d).overall) ▸ clamp01_bounds _
  · exact (by simp only [checkSafety] : (checkSafety d).toxicity =
      clamp01 (safetyRaw d).toxicity) ▸ clamp01_bounds _
  · exact (by simp only [checkSafety] : (checkSafety d).environmental_risk =
      clamp01 (safetyRaw d).environmental_risk) ▸ clamp01_bounds _
  · exact (by simp only [checkSafety] : (checkSafety d).biocontainment =
      clamp01 (safetyRaw d).biocontainment) ▸ clamp01_bounds _

theorem safety_resistance_scores_witness :
    (kanrDesign.parts.any fun p =>
      containsSub "resistance".toList (lowerL p.name.toList)) = true ∧
    hasKillSwitch kanrDesign = false ∧
    ((safetyRaw kanrDesign).overall ≤ 0.7 ∧
     (safetyRaw kanrDesign).biocontainment ≤ 0.4 ∧
     ((dangerousMatches kanrDesign = [] ∧ hasToxin kanrDesign = false) →
       (safetyRaw kanrDesign).overall = 0.7 ∧
       (safetyRaw kanrDesign).biocontainment = 0.4) ∧
     (0 ≤ (checkSafety kanrDesign).overall ∧
       (checkSafety kanrDesign).overall ≤ 1) ∧
     (0 ≤ (checkSafety kanrDesign).toxicity ∧
       (checkSafety kanrDesign).toxicity ≤ 1) ∧
     (0 ≤ (checkSafety kanrDesign).environmental_risk ∧
       (checkSafety kanrDesign).environmental_risk ≤ 1) ∧
     (0 ≤ (checkSafety kanrDesign).biocontainment ∧
       (checkSafety kanrDesign).biocontainment ≤ 1)) :=
  ⟨by decide, by decide,
    safety_resistance_scores kanrDesign (by decide) (by decide)⟩

theorem topoLoop_eq (parts : List DNAPart) :
    ∀ (i a1 a2 a3 a4 : Int),
      topoLoop parts i (a1, a2, a3, a4) =
        (lastIdxAux parts "promoter".toList i a1,
         lastIdxAux parts "rbs".toList i a2,
         lastIdxAux parts "gene".toList i a3,
         lastIdxAux parts "terminator".toList i a4) := by
  induction parts with
  | nil => intro i a1 a2 a3 a4; rfl
  | cons p rest ih =>
    intro i a1 a2 a3 a4
    simp only [topoLoop, lastIdxAux]
    by_cases h1 : lowerL p.type.toList = "promoter".toList
    · have h2 : ¬ lowerL p.type.toList = "rbs".toList := by rw [h1]; decide
      have h3 : ¬ lowerL p.type.toList = "gene".toList := by rw [h1]; decide
      have h4 : ¬ lowerL p.type.toList = "terminator".toList := by rw [h1]; decide
      rw [if_pos h1, if_pos h1, if_neg h2, if_neg h3, if_neg h4, ih]
    · rw [if_neg h1, if_neg h1]
      by_cases h2 : lowerL p.type.toList = "rbs".toList
      · have h3 : ¬ lowerL p.type.toList = "gene".toList := by rw [h2]; decide
        have h4 : ¬ lowerL p.type.toList = "terminator".toList := by rw [h2]; decide
        rw [if_pos h2, if_pos h2, if_neg h3, if_neg h4, ih]
      · rw [if_neg h2, if_neg h2]
        by_cases h3 : lowerL p.type.toList = "gene".toList
        · have h4 : ¬ lowerL p.type.toList = "terminator".toList := by
            rw [h3]; decide
          rw [if_pos h3, if_pos h3, if_neg h4, ih]
        · rw [if_neg h3, if_neg h3]
          by_cases h4 : lowerL p.type.toList = "terminator".toList
          · rw [if_pos h4, if_pos h4, ih]
          · rw [if_neg h4, if_neg h4, ih]

theorem lastIdxAux_nonneg :
    ∀ (parts : List DNAPart) (t : List Char) (i acc : Int), 0 ≤ i →
      (0 ≤ acc ∨ hasPartType parts t = true) → 0 ≤ lastIdxAux parts t i acc := by
  intro parts
  induction parts with
  | nil =>
    intro t i acc hi h
    rcases h with h | h
    · exact h
    · simp [hasPartType] at h
  | cons p rest ih =>
    intro t i acc hi h
    simp only [lastIdxAux]
    apply ih t (i + 1) _ (by omega)
    by_cases hc : lowerL p.type.toList = t
    · left; rw [if_pos hc]; exact hi
    · rw [if_neg hc]
      rcases h with h | h
      · exact Or.inl h
      · right
        simp only [hasPartType, List.any_cons, Bool.or_eq_true,
          decide_eq_true_eq] at h
        rcases h with h | h
        · exact absurd h hc
        · simpa [hasPartType] using h

theorem topoIndices_nonneg (parts : List DNAPart)
    (hp : hasPartType parts "promoter".toList = true)
    (hr : hasPartType parts "rbs".toList = true)
    (hg : hasPartType parts "gene".toList = true)
    (ht : hasPartType parts "terminator".toList = true) :
    0 ≤ (topoIndices parts).1 ∧ 0 ≤ (topoIndices parts).2.1 ∧
    0 ≤ (topoIndices parts).2.2.1 ∧ 0 ≤ (topoIndices parts).2.2.2 := by
  simp only [topoIndices, topoLoop_eq]
  exact ⟨lastIdxAux_nonneg parts _ 0 (-1) (by norm_num) (Or.inr hp),
    lastIdxAux_nonneg parts _ 0 (-1) (by norm_num) (Or.inr hr),
    lastIdxAux_nonneg parts _ 0 (-1) (by norm_num) (Or.inr hg),
    lastIdxAux_nonneg parts _ 0 (-1) (by norm_num) (Or.inr ht)⟩

/-- C2: on any design containing a promoter, an RBS, a gene and a
terminator whose recorded indices are in canonical order, simulation at
environment standard, host ecoli and temperature 37 yields exactly
growth_rate 0.6, protein_expression 0.8, metabolic_burden 0.5 and
stability 0.9 before the final uniform perturbation and clamping. -/
theorem sim_canonical_scores (parts : List DNAPart)
    (hp : hasPartType parts "promoter".toList = true)
    (hr : hasPartType parts "rbs".toList = true)
    (hg : hasPartType parts "gene".toList = true)
    (ht : hasPartType parts "terminator".toList = true)
    (hord : (topoIndices parts).1 < (topoIndices parts).2.1 ∧
      (topoIndices parts).2.1 < (topoIndices parts).2.2.1 ∧
      (topoIndices parts).2.2.1 < (topoIndices parts).2.2.2) :
    runSimPre parts "standard" "ecoli" 37 =
      { growth_rate := 0.6, protein_expression := 0.8, metabolic_burden := 0.5,
        stability := 0.9, correct_order := true } := by
  simp only [runSimPre]
  rw [if_neg (by intro hcon; exact hcon.2.2.2.2 hord)]
  have hEnv : envAdjust "standard" = (0, 0, 0) := by decide
  have hHost : hostAdjust "ecoli" = (0, 0) := by decide
  have hTemp : tempAdjust 37 = (0, 0) := by decide
  simp only [simBase, hp, hr, hg, ht, hEnv, hHost, hTemp]
  norm_num

theorem sim_canonical_scores_witness :
    hasPartType canonicalParts "promoter".toList = true ∧
    hasPartType canonicalParts "rbs".toList = true ∧
    hasPartType canonicalParts "gene".toList = true ∧
    hasPartType canonicalParts "terminator".toList = true ∧
    ((topoIndices canonicalParts).1 < (topoIndices canonicalParts).2.1 ∧
     (topoIndices canonicalParts).2.1 < (topoIndices canonicalParts).2.2.1 ∧
     (topoIndices canonicalParts).2.2.1 < (topoIndices canonicalParts).2.2.2) ∧
    runSimPre canonicalParts "standard" "ecoli" 37 =
      { growth_rate := 0.6, protein_expression := 0.8, metabolic_burden := 0.5,
        stability := 0.9, correct_order := true } :=
  ⟨by decide, by decide, by decide, by decide, by decide,
    sim_canonical_scores canonicalParts (by decide) (by decide) (by decide)
      (by decide) (by decide)⟩

/-- C4: when all four archetypal part types are present, the simulator
marks the order incorrect and applies the 0.2 stability and 0.2
protein_expression penalty exactly when the recorded (last-occurrence)
indices fail promoter < RBS < gene < terminator; in particular the parts
ordered gene, promoter, RBS, terminator are marked incorrect and score
exactly 0.2 lower on stability and protein_expression than the same
parts in canonical order, under any environment, host and temperature. -/
theorem sim_order_penalty (parts : List DNAPart) (environment host : String)
    (temperature : ℚ)
    (hp : hasPartType parts "promoter".toList = true)
    (hr : hasPartType parts "rbs".toList = true)
    (hg : hasPartType parts "gene".toList = true)
    (ht : hasPartType parts "terminator".toList = true) :
    ((runSimPre parts environment host temperature).correct_order = false ↔
      ¬ ((topoIndices parts).1 < (topoIndices parts).2.1 ∧
         (topoIndices parts).2.1 < (topoIndices parts).2.2.1 ∧
         (topoIndices parts).2.2.1 < (topoIndices parts).2.2.2)) ∧
    ((runSimPre parts environment host temperature).stability =
      (simBase parts environment host temperature).2.2.2 -
        (if (runSimPre parts environment host temperature).correct_order = false
          then (0.2 : ℚ) else 0)) ∧
    ((runSimPre parts environment host temperature).protein_expression =
      (simBase parts environment host temperature).2.1 -
        (if (runSimPre parts environment host temperature).correct_order = false
          then (0.2 : ℚ) else 0)) ∧
    (runSimPre gpetParts environment host temperature).correct_order = false ∧
    (runSimPre gpetParts environment host temperature).stability =
      (runSimPre canonicalParts environment host temperature).stability - 0.2 ∧
    (runSimPre gpetParts environment host temperature).protein_expression =
      (runSimPre canonicalParts environment host temperature).protein_expression
        - 0.2 := by
  obtain ⟨n1, n2, n3, n4⟩ := topoIndices_nonneg parts hp hr hg ht
  have hbase : simBase gpetParts environment host temperature =
      simBase canonicalParts environment host temperature := by
    simp only [simBase]
    rw [(by decide : hasPartType gpetParts "promoter".toList = true),
      (by decide : hasPartType gpetParts "rbs".toList = true),
      (by decide : hasPartType gpetParts "gene".toList = true),
      (by decide : hasPartType gpetParts "terminator".toList = true),
      (by decide : hasPartType canonicalParts "promoter".toList = true),
      (by decide : hasPartType canonicalParts "rbs".toList = true),
      (by decide : hasPartType canonicalParts "gene".toList = true),
      (by decide : hasPartType canonicalParts "terminator".toList = true)]
  have hgE : topoIndices gpetParts = (1, 2, 0, 3) := by decide
  have hcE : topoIndices canonicalParts = (0, 1, 2, 3) := by decide
  have hg2 : runSimPre gpetParts environment host temperature =
      { growth_rate := (simBase gpetParts environment host temperature).1,
        protein_expression :=
          (simBase gpetParts environment host temperature).2.1 - 0.2,
        metabolic_burden :=
          (simBase gpetParts environment host temperature).2.2.1,
        stability := (simBase gpetParts environment host temperature).2.2.2 - 0.2,
        correct_order := false } := by
    simp only [runSimPre, hgE]
    rw [if_pos (by norm_num)]
  have hc2 : runSimPre canonicalParts environment host temperature =
      { growth_rate := (simBase canonicalParts environment host temperature).1,
        protein_expression :=
          (simBase canonicalParts environment host temperature).2.1,
        metabolic_burden :=
          (simBase canonicalParts environment host temperature).2.2.1,
        stability := (simBase canonicalParts environment host temperature).2.2.2,
        correct_order := true } := by
    simp only [runSimPre, hcE]
    rw [if_neg (by norm_num)]
  refine ⟨?_, ?_, ?_, by rw [hg2], by rw [hg2, hc2, hbase],
    by rw [hg2, hc2, hbase]⟩ <;>
  · by_cases hord : (topoIndices parts).1 < (topoIndices parts).2.1 ∧
        (topoIndices parts).2.1 < (topoIndices parts).2.2.1 ∧
        (topoIndices parts).2.2.1 < (topoIndices parts).2.2.2
    · have hR : runSimPre parts environment host temperature =
          { growth_rate := (simBase parts environment host temperature).1,
            protein_expression :=
              (simBase parts environment host temperature).2.1,
            metabolic_burden :=
              (simBase parts environment host temperature).2.2.1,
            stability := (simBase parts environment host temperature).2.2.2,
            correct_order := true } := by
        simp only [runSimPre]
        rw [if_neg (fun hcon => hcon.2.2.2.2 hord)]
      rw [hR]
      simp [hord]
    · have hR : runSimPre parts environment host temperature =
          { growth_rate := (simBase parts environment host temperature).1,
            protein_expression :=
              (simBase parts environment host temperature).2.1 - 0.2,
            metabolic_burden :=
              (simBase parts environment host temperature).2.2.1,
            stability :=
              (simBase parts environment host temperature).2.2.2 - 0.2,
            correct_order := false } := by
        simp only [runSimPre]
        rw [if_pos ⟨by omega, by omega, by omega, by omega, hord⟩]
      rw [hR]
      simp [hord]

theorem sim_order_penalty_witness :
    hasPartType canonicalParts "promoter".toList = true ∧
    (runSimPre gpetParts "standard" "ecoli" 37).correct_order = false :=
  ⟨by decide,
    (sim_order_penalty canonicalParts "standard" "ecoli" 37 (by decide)
      (by decide) (by decide) (by decide)).2.2.2.1⟩

/-- C7: the validation report is invalid exactly when the uppercased
input holds a character outside A, T, G, C; in that case the issue lists
the set of offending characters, the replacement suggestion is given and
the length, GC and ORF fields are not produced (the analysis is
short-circuited); when the character check passes the report is valid
irrespective of warnings.  The embedding is a total function, so no
input faults. -/
theorem validate_character_check (dna : List Char) :
    ((pureValidate dna).valid = false ↔ ∃ c ∈ upperL dna, c ∉ validChars) ∧
    (∀ c, c ∈ invalidCharsOf dna ↔ c ∈ upperL dna ∧ c ∉ validChars) ∧
    (invalidCharsOf dna ≠ [] →
      (pureValidate dna).issues = [invalidIssue (invalidCharsOf dna)] ∧
      (pureValidate dna).suggestions =
        ["Replace invalid characters with A, T, G, or C"] ∧
      (pureValidate dna).sequence_length = none ∧
      (pureValidate dna).gc_content = none ∧ (pureValidate dna).orfs = none) ∧
    (invalidCharsOf dna = [] → (pureValidate dna).valid = true) := by
  have hmem : ∀ c, c ∈ invalidCharsOf dna ↔ c ∈ upperL dna ∧ c ∉ validChars := by
    intro c
    simp [invalidCharsOf, List.mem_filter]
  have hiff : invalidCharsOf dna ≠ [] ↔ ∃ c ∈ upperL dna, c ∉ validChars := by
    rw [ne_eq, List.eq_nil_iff_forall_not_mem]
    push_neg
    constructor
    · rintro ⟨c, hc⟩
      exact ⟨c, (hmem c).mp hc⟩
    · rintro ⟨c, h1, h2⟩
      exact ⟨c, (hmem c).mpr ⟨h1, h2⟩⟩
  by_cases h : invalidCharsOf dna = []
  · have hval : (pureValidate dna).valid = true := by simp [pureValidate, h]
    refine ⟨?_, hmem, fun hne => absurd h hne, fun _ => hval⟩
    rw [hval]
    constructor
    · intro hv
      exact absurd hv (by simp)
    · intro hex
      exact absurd (hiff.mpr hex) (by simp [h])
  · have hval : (pureValidate dna).valid = false := by simp [pureValidate, h]
    refine ⟨?_, hmem, fun _ => ?_, fun he => absurd he h⟩
    · rw [hval]
      exact ⟨fun _ => hiff.mp h, fun _ => rfl⟩
    · refine ⟨?_, ?_, ?_, ?_, ?_⟩ <;> simp [pureValidate, h]

theorem validate_character_check_witness :
    (pureValidate "ATGX".toList).valid = false ∧
    (pureValidate "atgc".toList).valid = true :=
  ⟨(validate_character_check "ATGX".toList).1.mpr (by decide),
   (validate_character_check "atgc".toList).2.2.2 (by decide)⟩

theorem cacheLookup_mem :
    ∀ (cache : List (String × CacheEntry)) (k : String) (e : CacheEntry),
      cacheLookup cache k = some e → (k, e) ∈ cache := by
  intro cache
  induction cache with
  | nil => intro k e h; simp [cacheLookup] at h
  | cons kv rest ih =>
    intro k e h
    obtain ⟨k2, e2⟩ := kv
    simp only [cacheLookup] at h
    by_cases hk : k2 = k
    · rw [if_pos hk] at h
      injection h with h
      subst hk
      subst h
      exact List.mem_cons_self _ _
    · rw [if_neg hk] at h
      exact List.mem_cons_of_mem _ (ih k e h)

theorem validate_key_inj {a b : String}
    (h : "validate_" ++ a = "validate_" ++ b) : a = b := by
  have h2 := congrArg String.data h
  simp [String.data_append] at h2
  exact String.ext h2

theorem validateCached_result (dna : String)
    (cache : List (String × CacheEntry)) (now : ℚ) (h : CacheGood cache) :
    (validateCached dna cache now).1 = pureValidate dna.toList := by
  rcases hl : cacheLookup cache ("validate_" ++ dna) with _ | e <;>
    simp only [validateCached, hl]
  by_cases ht : now - e.timestamp < cacheExpiry
  · rw [if_pos ht]
    exact h dna e (cacheLookup_mem cache _ e hl)
  · rw [if_neg ht]

theorem cacheGood_cons (dna : String) (now : ℚ)
    (cache : List (String × CacheEntry)) (h : CacheGood cache) :
    CacheGood (("validate_" ++ dna,
      (⟨pureValidate dna.toList, now⟩ : CacheEntry)) :: cache) := by
  intro s e2 hmem
  rcases List.mem_cons.mp hmem with heq | hm
  · have h1 : "validate_" ++ s = "validate_" ++ dna :=
      congrArg Prod.fst heq
    have h2 : e2 = ⟨pureValidate dna.toList, now⟩ := congrArg Prod.snd heq
    rw [h2, validate_key_inj h1]
  · exact h s e2 hm

theorem validateCached_preserves (dna : String)
    (cache : List (String × CacheEntry)) (now : ℚ) (h : CacheGood cache) :
    CacheGood (validateCached dna cache now).2 := by
  rcases hl : cacheLookup cache ("validate_" ++ dna) with _ | e <;>
    simp only [validateCached, hl]
  · exact cacheGood_cons dna now cache h
  · by_cases ht : now - e.timestamp < cacheExpiry
    · rw [if_pos ht]
      exact h
    · rw [if_neg ht]
      exact cacheGood_cons dna now cache h

/-- C9: two validations of the same input string return equal reports,
whether the second call is answered from the cache or recomputed, for any
query times and any cache whose entries were produced by validation
itself. -/
theorem validate_idempotent (dna : String) (cache : List (String × CacheEntry))
    (t1 t2 : ℚ) (h : CacheGood cache) :
    (validateCached dna (validateCached dna cache t1).2 t2).1 =
      (validateCached dna cache t1).1 := by
  rw [validateCached_result dna _ t2 (validateCached_preserves dna cache t1 h),
    validateCached_result dna cache t1 h]

theorem validate_idempotent_witness :
    CacheGood [] ∧
    (validateCached "ATGC" (validateCached "ATGC" [] 0).2 1).1 =
      (validateCached "ATGC" [] 0).1 :=
  ⟨fun _ _ hmem => absurd hmem (List.not_mem_nil _),
   validate_idempotent "ATGC" [] 0 1
     (fun _ _ hmem => absurd hmem (List.not_mem_nil _))⟩

end BioForge
